import Mathlib

/-!
Shallow embedding of the `MercedesWebSocket` class from `src/lib/websocket.js`
(Mercedes-Benz Homey app).  The class owns one WebSocket session: a connection
lifecycle with reconnect backoff, two watchdog timers, an inbound-frame
dispatcher with acknowledgments, and a command tracker (`pendingCommands`,
a `Map` from request identifier to `{resolve, reject, timeout, sentAt}`).

The JS object state is modelled by the structure `WSState`; each method body
becomes a pure function on `WSState`, and callback invocations (promise
resolution/rejection, reconnect scheduling, telemetry delivery) become emitted
`Output` values.  Asynchronous callbacks that the JS runtime may fire (socket
events, timer expiries, public API calls) are modelled as an `Event` type with
a small-step function `step`; an event whose JS trigger cannot fire in a given
state (e.g. a command timeout whose handle was passed to `clearTimeout`) is a
no-op there.
-/

namespace MercedesWebSocket

/-- One entry of `this.pendingCommands` (`sendCommand`, websocket.js:568-573).
`timerArmed` records whether the `setTimeout` handle stored in the entry's
`timeout` field is still scheduled (i.e. `clearTimeout` has not been called
and the timer has not fired). -/
structure Pending where
  timerArmed : Bool
  timeoutMs : Nat
  sentAt : Nat
deriving Repr, DecidableEq

/-- The mutable fields of a `MercedesWebSocket` instance that the connection
lifecycle, watchdogs, reconnect policy and command tracker read or write.
`wsExists` models `this.ws !== null`; `wsOpen` models
`this.ws.readyState === WebSocket.OPEN`; the two watchdog booleans model
whether the corresponding `setTimeout` handle is scheduled; `reconnectTimer`
models `this.reconnectTimer !== null`. -/
structure WSState where
  wsExists : Bool
  wsOpen : Bool
  isConnecting : Bool
  isStopping : Bool
  connectionState : String
  pendingCommands : String → Option Pending
  reconnectAttempts : Nat
  reconnectTimer : Bool
  accountBlocked : Bool
  blockedSinceTime : Option Nat
  connectionWatchdog : Bool
  pingWatchdog : Bool

/-- Constructor state (websocket.js:18-49). -/
def initState : WSState :=
  { wsExists := false
    wsOpen := false
    isConnecting := false
    isStopping := false
    connectionState := "disconnected"
    pendingCommands := fun _ => none
    reconnectAttempts := 0
    reconnectTimer := false
    accountBlocked := false
    blockedSinceTime := none
    connectionWatchdog := false
    pingWatchdog := false }

/-- Externally observable effects: promise settlements of tracked commands,
reconnect scheduling (with the attempt count and computed delay in ms), and
telemetry handed to the message handler. -/
inductive Output where
  | resolved (requestId : String) (state : String)
  | rejected (requestId : String) (errorMessage : String)
  | reconnectScheduled (attempt : Nat) (delay : Nat)
  | telemetry (vin : String) (attributes : List (String × String)) (fullUpdate : Bool)
deriving Repr, DecidableEq

/-- `this.maxReconnectDelay` (websocket.js:35). -/
def maxReconnectDelay : Nat := 120000

/-- `_scheduleReconnect` (websocket.js:431-459): no-op when stopping or a
reconnect timer is already pending; otherwise increments the attempt counter,
computes `min(10000 * attempts^2, maxReconnectDelay)`, raises it to at least
60000 when `accountBlocked`, and arms the reconnect timer. -/
def scheduleReconnect (s : WSState) : WSState × List Output :=
  if s.isStopping || s.reconnectTimer then (s, [])
  else
    let attempts := s.reconnectAttempts + 1
    let delay := min (10000 * attempts ^ 2) maxReconnectDelay
    let delay := if s.accountBlocked then max delay 60000 else delay
    ({ s with reconnectAttempts := attempts, reconnectTimer := true },
     [Output.reconnectScheduled attempts delay])

/-- `disconnect` (websocket.js:589-617): sets `isStopping`, cancels the
reconnect timer, stops both watchdogs, closes and nulls the socket, and sets
`connectionState` to `'disconnected'`.  It does not touch `isConnecting`,
`pendingCommands`, `reconnectAttempts` or the blocked flag. -/
def disconnect (s : WSState) : WSState :=
  { s with isStopping := true
           reconnectTimer := false
           connectionWatchdog := false
           pingWatchdog := false
           wsExists := false
           wsOpen := false
           connectionState := "disconnected" }

/-- `_handleConnectionTimeout` (websocket.js:422-426): the connection-watchdog
expiry action calls `this.disconnect()` and then `this._scheduleReconnect()`. -/
def handleConnectionTimeout (s : WSState) : WSState × List Output :=
  scheduleReconnect (disconnect s)

/-- `connect` (websocket.js:102-119) together with the socket construction in
`_connectInternal` (websocket.js:132-135): returns unchanged when already
connecting or stopping; otherwise sets `isConnecting`, clears `isStopping`,
and creates a fresh socket handle (not yet open).  Note that
`connectionState` is not assigned anywhere on this path. -/
def connect (s : WSState) : WSState :=
  if s.isConnecting || s.isStopping then s
  else { s with isConnecting := true
                isStopping := false
                wsExists := true
                wsOpen := false }

/-- The `'open'` listener (websocket.js:138-151): sets
`connectionState = 'connected'`, clears `isConnecting`, resets the reconnect
attempt counter and the blocked flag, and starts both watchdogs. -/
def onOpen (s : WSState) : WSState :=
  { s with connectionState := "connected"
           isConnecting := false
           reconnectAttempts := 0
           accountBlocked := false
           blockedSinceTime := none
           connectionWatchdog := true
           pingWatchdog := true
           wsOpen := true }

/-- The state mutations of the `'close'` listener before its reconnect check
(websocket.js:192-197): `connectionState = 'disconnected'`, `isConnecting`
cleared, both watchdogs stopped. -/
def closedState (s : WSState) : WSState :=
  { s with connectionState := "disconnected"
           isConnecting := false
           connectionWatchdog := false
           pingWatchdog := false
           wsOpen := false }

/-- The `'close'` listener (websocket.js:192-203): apply `closedState`, then
schedule a reconnect unless `isStopping` (which the listener does not
modify). -/
def onClose (s : WSState) : WSState × List Output :=
  if s.isStopping then (closedState s, []) else scheduleReconnect (closedState s)

/-- The `'error'` listener (websocket.js:178-189): a message containing `429`
sets the blocked flag and timestamp.  Its `reject(error)` settles the pending
`_connectInternal` promise only while the connect attempt is still in flight
(before `'open'`), in which case `connect`'s catch clears `isConnecting` and
calls `_scheduleReconnect` (websocket.js:114-118). -/
def errorFlagged (s : WSState) (is429 : Bool) (now : Nat) : WSState :=
  if is429 then { s with accountBlocked := true, blockedSinceTime := some now } else s

def onError (s : WSState) (is429 : Bool) (now : Nat) : WSState × List Output :=
  if s.isConnecting && !s.wsOpen then
    scheduleReconnect { errorFlagged s is429 now with isConnecting := false }
  else (errorFlagged s is429 now, [])

/-- `getConnectionState` (websocket.js:622-624). -/
def getConnectionState (s : WSState) : String := s.connectionState

/-- The registration step of `sendCommand` (websocket.js:560-573): arms the
per-command timeout and stores the entry in `pendingCommands`. -/
def registerCommand (s : WSState) (requestId : String) (timeoutMs now : Nat) : WSState :=
  { s with pendingCommands := fun k =>
      if k = requestId then some { timerArmed := true, timeoutMs := timeoutMs, sentAt := now }
      else s.pendingCommands k }

/-- The body of the per-command `setTimeout` callback (websocket.js:562-565):
deletes the entry and rejects the command promise with a timeout error. -/
def fireCommandTimeout (s : WSState) (requestId : String) : WSState × List Output :=
  ({ s with pendingCommands := fun k =>
       if k = requestId then none else s.pendingCommands k },
   [Output.rejected requestId "Command timeout - no response from vehicle"])

/-- `status.errors` of one command-status entry (websocket.js:511-518).
`none` in a field models a falsy (absent or empty) JS value being skipped by
the truthiness checks; `some ""` models an explicitly empty string. -/
structure CommandError where
  code : Option String
  message : Option String
deriving Repr, DecidableEq

/-- One entry of `pidUpdates.updatesByPid` (websocket.js:484-489). -/
structure CommandStatus where
  requestId : String
  state : Nat
  errors : Option CommandError
deriving Repr, DecidableEq

/-- The `apptwinCommandStatusUpdatesByVin` payload (websocket.js:464-481):
per-VIN groups of status entries plus a sequence number (0 models the falsy
absent protobuf default). -/
structure CommandStatusUpdates where
  updatesByVin : List (String × Option (List CommandStatus))
  sequenceNumber : Nat
deriving Repr, DecidableEq

/-- `STATE_MAP` (websocket.js:470-478). -/
def STATE_MAP (code : Nat) : Option String :=
  match code with
  | 0 => some "UNKNOWN"
  | 1 => some "INITIATED"
  | 2 => some "ENQUEUED"
  | 3 => some "PROCESSING"
  | 4 => some "WAITING"
  | 5 => some "FINISHED"
  | 6 => some "FAILED"
  | _ => none

/-- `STATE_MAP[stateCode] || 'UNKNOWN'` (websocket.js:487); every mapped
string is non-empty hence truthy, so the fallback applies exactly to codes
outside the map. -/
def mappedState (code : Nat) : String := (STATE_MAP code).getD "UNKNOWN"

/-- The error-message composition of the `FAILED` branch
(websocket.js:510-519), with JS string truthiness made explicit. -/
def failedErrorMessage (errors : Option CommandError) : String :=
  match errors with
  | none => "Command failed"
  | some e =>
    let m1 := "Command failed"
    let m2 := match e.message with
              | some msg => if msg = "" then m1 else m1 ++ ": " ++ msg
              | none => m1
    match e.code with
    | some c => if c = "" then m2 else m2 ++ " (" ++ c ++ ")"
    | none => m2

/-- The body of the inner loop of `_handleCommandStatusUpdates`
(websocket.js:484-525) for one status entry: map the numeric state, look up
the request identifier; when absent, `continue`; when present, clear the
entry's timeout unconditionally, then on `FINISHED` resolve and delete, on
`FAILED` reject (with the composed message) and delete, and otherwise keep
the entry and keep waiting. -/
def handleOneStatus (s : WSState) (status : CommandStatus) : WSState × List Output :=
  let state := mappedState status.state
  match s.pendingCommands status.requestId with
  | none => (s, [])
  | some pending =>
    let cleared : Pending := { pending with timerArmed := false }
    let s1 := { s with pendingCommands := fun k =>
        if k = status.requestId then some cleared else s.pendingCommands k }
    if state = "FINISHED" then
      ({ s1 with pendingCommands := fun k =>
           if k = status.requestId then none else s1.pendingCommands k },
       [Output.resolved status.requestId state])
    else if state = "FAILED" then
      ({ s1 with pendingCommands := fun k =>
           if k = status.requestId then none else s1.pendingCommands k },
       [Output.rejected status.requestId (failedErrorMessage status.errors)])
    else (s1, [])

/-- The inner loop of `_handleCommandStatusUpdates` over
`Object.values(pidUpdates.updatesByPid)`. -/
def handleStatusList (s : WSState) : List CommandStatus → WSState × List Output
  | [] => (s, [])
  | st :: rest =>
    let r1 := handleOneStatus s st
    let r2 := handleStatusList r1.1 rest
    (r2.1, r1.2 ++ r2.2)

/-- The outer loop of `_handleCommandStatusUpdates` over
`Object.entries(statusUpdates.updatesByVin)`; a group with no
`updatesByPid` is skipped (`continue`, websocket.js:482). -/
def handleVinList (s : WSState) : List (String × Option (List CommandStatus)) → WSState × List Output
  | [] => (s, [])
  | (_, none) :: rest => handleVinList s rest
  | (_, some pids) :: rest =>
    let r1 := handleStatusList s pids
    let r2 := handleVinList r1.1 rest
    (r2.1, r1.2 ++ r2.2)

/-- `_handleCommandStatusUpdates` (websocket.js:464-527); `none` models a
missing `statusUpdates`/`updatesByVin`, which returns immediately. -/
def handleCommandStatusUpdates (s : WSState) (su : Option CommandStatusUpdates) :
    WSState × List Output :=
  match su with
  | none => (s, [])
  | some su => handleVinList s su.updatesByVin

/-- One per-VIN telemetry update inside a `vepUpdates` frame
(websocket.js:245-259); attributes are the opaque decoded field map. -/
structure VepUpdate where
  attributes : List (String × String)
  fullUpdate : Bool
deriving Repr, DecidableEq

/-- `message.vepUpdates` (websocket.js:241-265); sequence number 0 models the
falsy absent value. -/
structure VepUpdates where
  updates : Option (List (String × VepUpdate))
  sequenceNumber : Nat
deriving Repr, DecidableEq

/-- A decoded push message: the result of `protoParser.parsePushMessage`,
tagged by the `message.msg` discriminator that the `switch` in
`_processMessage` (websocket.js:236-315) dispatches on.  `other` is the
`default` branch for unrecognized discriminators. -/
inductive PushMessage where
  | vepUpdates (v : Option VepUpdates)
  | assigned_vehicles
  | apptwin_pending_command_request
  | apptwin_command_status_updates_by_vin (su : CommandStatusUpdates)
  | service_status_updates (sequenceNumber : Option Nat)
  | user_data_update (sequenceNumber : Option Nat)
  | debugMessage (text : String)
  | other (msgType : String)
deriving Repr, DecidableEq

/-- Acknowledgment frames built by `_processMessage` and sent back on the
same connection (websocket.js:262-319). -/
inductive Ack where
  | vepUpdatesAck (seq : Nat)
  | assignedVehiclesAck
  | pendingCommandRequestAck
  | commandStatusAck (seq : Nat)
  | serviceStatusAck (seq : Nat)
  | userDataAck (seq : Nat)
deriving Repr, DecidableEq

/-- The `vepUpdates` branch (websocket.js:237-266): hand every per-VIN update
to the message handler and acknowledge a truthy sequence number. -/
def processVepUpdates (v : Option VepUpdates) : List Output × Option Ack :=
  match v with
  | none => ([], none)
  | some vu =>
    match vu.updates with
    | none => ([], none)
    | some ups =>
      (ups.map (fun p => Output.telemetry p.1 p.2.attributes p.2.fullUpdate),
       if vu.sequenceNumber ≠ 0 then some (Ack.vepUpdatesAck vu.sequenceNumber) else none)

/-- The `switch (messageType)` of `_processMessage` (websocket.js:236-315). -/
def dispatchMessage (s : WSState) (msg : PushMessage) : WSState × List Output × Option Ack :=
  match msg with
  | .vepUpdates v =>
      let r := processVepUpdates v
      (s, r.1, r.2)
  | .assigned_vehicles => (s, [], some Ack.assignedVehiclesAck)
  | .apptwin_pending_command_request => (s, [], some Ack.pendingCommandRequestAck)
  | .apptwin_command_status_updates_by_vin su =>
      let r := handleCommandStatusUpdates s (some su)
      (r.1, r.2,
       if su.sequenceNumber ≠ 0 then some (Ack.commandStatusAck su.sequenceNumber) else none)
  | .service_status_updates p =>
      match p with
      | some seq => if seq ≠ 0 then (s, [], some (Ack.serviceStatusAck seq)) else (s, [], none)
      | none => (s, [], none)
  | .user_data_update p =>
      match p with
      | some seq => if seq ≠ 0 then (s, [], some (Ack.userDataAck seq)) else (s, [], none)
      | none => (s, [], none)
  | .debugMessage _ => (s, [], none)
  | .other _ => (s, [], none)

/-- `_processMessage` (websocket.js:220-325).  The argument is the result of
`protoParser.parsePushMessage` on the inbound bytes: `.error` models the
parser throwing (caught by the surrounding `try`/`catch`, which logs and
drops the frame before any state was touched), `.ok none` models a `null`
parse result (logged and dropped), `.ok (some msg)` a decoded frame.  The
function is total: no input makes dispatch throw. -/
def processMessage (s : WSState) (decoded : Except String (Option PushMessage)) :
    WSState × List Output × Option Ack :=
  match decoded with
  | .error _ => (s, [], none)
  | .ok none => (s, [], none)
  | .ok (some msg) => dispatchMessage s msg

/-- The `'message'` listener (websocket.js:154-175): reset both watchdogs,
then process the frame. -/
def onMessage (s : WSState) (decoded : Except String (Option PushMessage)) :
    WSState × List Output × Option Ack :=
  processMessage { s with connectionWatchdog := true, pingWatchdog := true } decoded

/-- The events the JS runtime can deliver to a `MercedesWebSocket` instance:
public API calls, socket events, and timer expiries. -/
inductive Event where
  | connectCall
  | openEvt
  | closeEvt
  | errorEvt (is429 : Bool) (now : Nat)
  | message (decoded : Except String (Option PushMessage))
  | register (requestId : String) (timeoutMs now : Nat)
  | commandTimeout (requestId : String)
  | reconnectTimerFire
  | disconnectCall
  | connectionWatchdogFire
deriving Repr

/-- One runtime event.  Guards encode when the JS trigger can actually fire:
`'open'` only on a live not-yet-open socket; inbound messages and command
registration only on an open socket; a command timeout only while its
`setTimeout` is still armed; the reconnect timer and connection watchdog only
while scheduled.  `'close'` and `'error'` listeners may fire even after
`disconnect` nulled `this.ws` (the old socket object keeps its listeners), so
they are unguarded.  An event whose trigger cannot fire is a no-op. -/
def step (s : WSState) (e : Event) : WSState × List Output :=
  match e with
  | .connectCall => (connect s, [])
  | .openEvt => if s.wsExists && !s.wsOpen then (onOpen s, []) else (s, [])
  | .closeEvt => onClose s
  | .errorEvt b t => onError s b t
  | .message d =>
      if s.wsOpen then ((onMessage s d).1, (onMessage s d).2.1) else (s, [])
  | .register r tmo t => if s.wsOpen then (registerCommand s r tmo t, []) else (s, [])
  | .commandTimeout r =>
      match s.pendingCommands r with
      | some p => if p.timerArmed then fireCommandTimeout s r else (s, [])
      | none => (s, [])
  | .reconnectTimerFire =>
      if s.reconnectTimer then
        if s.isStopping then ({ s with reconnectTimer := false }, [])
        else (connect { s with reconnectTimer := false }, [])
      else (s, [])
  | .disconnectCall => (disconnect s, [])
  | .connectionWatchdogFire =>
      if s.connectionWatchdog then handleConnectionTimeout s else (s, [])

/-- Run a sequence of runtime events, collecting all outputs. -/
def run (s : WSState) : List Event → WSState × List Output
  | [] => (s, [])
  | e :: rest =>
    let r1 := step s e
    let r2 := run r1.1 rest
    (r2.1, r1.2 ++ r2.2)

/-- Whether an output is a settlement (resolution or rejection) of the
command with request identifier `r`. -/
def Output.settles (o : Output) (r : String) : Bool :=
  match o with
  | .resolved rid _ => rid = r
  | .rejected rid _ => rid = r
  | _ => false

/-- Number of settlements of request identifier `r` in an output list. -/
def settlementsFor (r : String) (outs : List Output) : Nat :=
  (outs.filter (fun o => o.settles r)).length

/-- Whether `pendingCommands` holds an entry for `r`, as a count (0 or 1). -/
def presence (s : WSState) (r : String) : Nat :=
  match s.pendingCommands r with
  | some _ => 1
  | none => 0

/-- Whether an event is a `sendCommand` registration for `r`. -/
def Event.registers (e : Event) (r : String) : Bool :=
  match e with
  | .register rid _ _ => rid = r
  | _ => false

/-- Number of registrations for `r` in an event list. -/
def registersFor (r : String) (es : List Event) : Nat :=
  (es.filter (fun e => e.registers r)).length

/-- All request identifiers referenced by a command-status frame. -/
def CommandStatusUpdates.referencedIds (su : CommandStatusUpdates) : List String :=
  su.updatesByVin.flatMap (fun p => match p.2 with
    | some l => l.map CommandStatus.requestId
    | none => [])

/-- Whether a status entry is a terminal (FINISHED or FAILED) update for `r`. -/
def CommandStatus.terminalFor (st : CommandStatus) (r : String) : Bool :=
  st.requestId = r &&
    (mappedState st.state = "FINISHED" || mappedState st.state = "FAILED")

/-- Whether an event delivers a command-status frame containing a terminal
update for `r`. -/
def Event.deliversTerminal (e : Event) (r : String) : Bool :=
  match e with
  | .message (Except.ok (some (PushMessage.apptwin_command_status_updates_by_vin su))) =>
      su.updatesByVin.any (fun p => match p.2 with
        | some l => l.any (fun st => st.terminalFor r)
        | none => false)
  | _ => false

/-- A connected session (socket open, watchdogs running) with the command
`"abc"` freshly registered by `sendCommand` with the default 30000 ms
timeout. -/
def leakRegistered : WSState :=
  registerCommand (onOpen (connect initState)) "abc" 30000 0

/-- A command-status frame reporting the intermediate state `PROCESSING`
(numeric code 3) for request identifier `"abc"`. -/
def processingFrame : CommandStatusUpdates :=
  { updatesByVin := [("W1K0000001", some [{ requestId := "abc", state := 3, errors := none }])]
    sequenceNumber := 7 }

/-- A command-status frame reporting the terminal state `FINISHED` (numeric
code 5) for request identifier `"abc"`. -/
def finishedFrame : CommandStatusUpdates :=
  { updatesByVin := [("W1K0000001", some [{ requestId := "abc", state := 5, errors := none }])]
    sequenceNumber := 8 }

/-- The state after the `PROCESSING` frame for `"abc"` is dispatched to
`leakRegistered`. -/
def leakedState : WSState :=
  (step leakRegistered (Event.message (Except.ok (some
    (PushMessage.apptwin_command_status_updates_by_vin processingFrame))))).1

/-- A command-status frame referencing only the unknown request identifier
`"zzz"`. -/
def zzzFrame : CommandStatusUpdates :=
  { updatesByVin := [("W1K0000001", some [{ requestId := "zzz", state := 5, errors := none }])]
    sequenceNumber := 0 }

/-- Two states that agree on every field except possibly `pendingCommands`
(the command tracker is the only thing `_handleCommandStatusUpdates`
mutates). -/
def EqExceptPending (a b : WSState) : Prop :=
  a.wsExists = b.wsExists ∧ a.wsOpen = b.wsOpen ∧ a.isConnecting = b.isConnecting ∧
  a.isStopping = b.isStopping ∧ a.connectionState = b.connectionState ∧
  a.reconnectAttempts = b.reconnectAttempts ∧ a.reconnectTimer = b.reconnectTimer ∧
  a.accountBlocked = b.accountBlocked ∧ a.blockedSinceTime = b.blockedSinceTime ∧
  a.connectionWatchdog = b.connectionWatchdog ∧ a.pingWatchdog = b.pingWatchdog

end MercedesWebSocket

namespace MercedesWebSocket

/-! ### Basic preservation lemmas -/

theorem connect_pendingCommands (s : WSState) :
    (connect s).pendingCommands = s.pendingCommands := by
  unfold connect; split <;> rfl

theorem connect_connectionState (s : WSState) :
    (connect s).connectionState = s.connectionState := by
  unfold connect; split <;> rfl

theorem connect_stopping (s : WSState) (h : s.isStopping = true) : connect s = s := by
  unfold connect; simp [h]

theorem scheduleReconnect_fst (s : WSState) :
    (scheduleReconnect s).1 = s ∨
    (scheduleReconnect s).1 =
      { s with reconnectAttempts := s.reconnectAttempts + 1, reconnectTimer := true } := by
  unfold scheduleReconnect; split
  · exact Or.inl rfl
  · exact Or.inr rfl

theorem scheduleReconnect_pendingCommands (s : WSState) :
    (scheduleReconnect s).1.pendingCommands = s.pendingCommands := by
  rcases scheduleReconnect_fst s with h | h <;> rw [h]

theorem scheduleReconnect_connectionState (s : WSState) :
    (scheduleReconnect s).1.connectionState = s.connectionState := by
  rcases scheduleReconnect_fst s with h | h <;> rw [h]

theorem scheduleReconnect_isStopping (s : WSState) :
    (scheduleReconnect s).1.isStopping = s.isStopping := by
  rcases scheduleReconnect_fst s with h | h <;> rw [h]

theorem scheduleReconnect_wsExists (s : WSState) :
    (scheduleReconnect s).1.wsExists = s.wsExists := by
  rcases scheduleReconnect_fst s with h | h <;> rw [h]

theorem scheduleReconnect_stopping (s : WSState) (h : s.isStopping = true) :
    scheduleReconnect s = (s, []) := by
  unfold scheduleReconnect; simp [h]

theorem settlementsFor_append (r : String) (o1 o2 : List Output) :
    settlementsFor r (o1 ++ o2) = settlementsFor r o1 + settlementsFor r o2 := by
  simp [settlementsFor, List.filter_append]

theorem settlementsFor_reconnect (r : String) (s : WSState) :
    settlementsFor r (scheduleReconnect s).2 = 0 := by
  unfold scheduleReconnect; split <;> simp [settlementsFor, Output.settles]

theorem settlementsFor_telemetry (r : String) (l : List (String × VepUpdate)) :
    settlementsFor r (l.map (fun p => Output.telemetry p.1 p.2.attributes p.2.fullUpdate)) = 0 := by
  induction l with
  | nil => rfl
  | cons hd tl ih => simpa [settlementsFor, Output.settles] using ih

theorem eqExceptPending_refl (a : WSState) : EqExceptPending a a :=
  ⟨rfl, rfl, rfl, rfl, rfl, rfl, rfl, rfl, rfl, rfl, rfl⟩

theorem eqExceptPending_trans {a b c : WSState}
    (h1 : EqExceptPending a b) (h2 : EqExceptPending b c) : EqExceptPending a c := by
  obtain ⟨e1, e2, e3, e4, e5, e6, e7, e8, e9, e10, e11⟩ := h1
  obtain ⟨f1, f2, f3, f4, f5, f6, f7, f8, f9, f10, f11⟩ := h2
  exact ⟨e1.trans f1, e2.trans f2, e3.trans f3, e4.trans f4, e5.trans f5, e6.trans f6,
    e7.trans f7, e8.trans f8, e9.trans f9, e10.trans f10, e11.trans f11⟩

theorem handleOneStatus_eqExceptPending (s : WSState) (st : CommandStatus) :
    EqExceptPending (handleOneStatus s st).1 s := by
  unfold handleOneStatus
  cases h : s.pendingCommands st.requestId with
  | none => exact eqExceptPending_refl s
  | some p =>
    by_cases h5 : mappedState st.state = "FINISHED"
    · simp only [h5, if_pos rfl]
      exact ⟨rfl, rfl, rfl, rfl, rfl, rfl, rfl, rfl, rfl, rfl, rfl⟩
    · by_cases h6 : mappedState st.state = "FAILED" <;>
        simp only [if_neg h5, h6, if_pos rfl, if_neg] <;>
        exact ⟨rfl, rfl, rfl, rfl, rfl, rfl, rfl, rfl, rfl, rfl, rfl⟩

theorem handleStatusList_eqExceptPending (s : WSState) (l : List CommandStatus) :
    EqExceptPending (handleStatusList s l).1 s := by
  induction l generalizing s with
  | nil => exact eqExceptPending_refl s
  | cons hd tl ih =>
    simp only [handleStatusList]
    exact eqExceptPending_trans (ih (handleOneStatus s hd).1)
      (handleOneStatus_eqExceptPending s hd)

theorem handleVinList_eqExceptPending (s : WSState)
    (l : List (String × Option (List CommandStatus))) :
    EqExceptPending (handleVinList s l).1 s := by
  induction l generalizing s with
  | nil => exact eqExceptPending_refl s
  | cons hd tl ih =>
    obtain ⟨vin, opids⟩ := hd
    cases opids with
    | none => simpa [handleVinList] using ih s
    | some pids =>
      simp only [handleVinList]
      exact eqExceptPending_trans (ih (handleStatusList s pids).1)
        (handleStatusList_eqExceptPending s pids)

theorem dispatchMessage_eqExceptPending (s : WSState) (msg : PushMessage) :
    EqExceptPending (dispatchMessage s msg).1 s := by
  cases msg with
  | vepUpdates v => exact eqExceptPending_refl s
  | assigned_vehicles => exact eqExceptPending_refl s
  | apptwin_pending_command_request => exact eqExceptPending_refl s
  | apptwin_command_status_updates_by_vin su =>
    simpa [dispatchMessage, handleCommandStatusUpdates] using
      handleVinList_eqExceptPending s su.updatesByVin
  | service_status_updates p =>
    cases p with
    | none => exact eqExceptPending_refl s
    | some seq =>
      by_cases h : seq = 0 <;> simp [dispatchMessage, h] <;> exact eqExceptPending_refl s
  | user_data_update p =>
    cases p with
    | none => exact eqExceptPending_refl s
    | some seq =>
      by_cases h : seq = 0 <;> simp [dispatchMessage, h] <;> exact eqExceptPending_refl s
  | debugMessage t => exact eqExceptPending_refl s
  | other t => exact eqExceptPending_refl s

theorem onClose_connectionState (s : WSState) :
    (onClose s).1.connectionState = "disconnected" := by
  unfold onClose
  split
  · rfl
  · rw [scheduleReconnect_connectionState]; rfl

theorem errorFlagged_connectionState (s : WSState) (b : Bool) (t : Nat) :
    (errorFlagged s b t).connectionState = s.connectionState := by
  unfold errorFlagged; split <;> rfl

theorem onError_connectionState (s : WSState) (b : Bool) (t : Nat) :
    (onError s b t).1.connectionState = s.connectionState := by
  unfold onError
  split
  · rw [scheduleReconnect_connectionState]
    exact errorFlagged_connectionState s b t
  · exact errorFlagged_connectionState s b t

theorem processMessage_eqExceptPending (s : WSState)
    (d : Except String (Option PushMessage)) :
    EqExceptPending (processMessage s d).1 s := by
  unfold processMessage
  match d with
  | .error e => exact eqExceptPending_refl s
  | .ok none => exact eqExceptPending_refl s
  | .ok (some msg) => exact dispatchMessage_eqExceptPending s msg

theorem processMessage_connectionState (s : WSState)
    (d : Except String (Option PushMessage)) :
    (processMessage s d).1.connectionState = s.connectionState :=
  (processMessage_eqExceptPending s d).2.2.2.2.1

theorem step_connectionState (s : WSState) (e : Event) :
    (step s e).1.connectionState = s.connectionState ∨
    (step s e).1.connectionState = "disconnected" ∨
    (step s e).1.connectionState = "connected" := by
  cases e with
  | connectCall => exact Or.inl (connect_connectionState s)
  | openEvt =>
    simp only [step]; split
    · exact Or.inr (Or.inr rfl)
    · exact Or.inl rfl
  | closeEvt => exact Or.inr (Or.inl (onClose_connectionState s))
  | errorEvt b t => exact Or.inl (onError_connectionState s b t)
  | message d =>
    simp only [step]; split
    · exact Or.inl (processMessage_connectionState _ d)
    · exact Or.inl rfl
  | register r tmo t =>
    simp only [step]; split <;> exact Or.inl rfl
  | commandTimeout r =>
    simp only [step]
    cases s.pendingCommands r with
    | some p =>
      dsimp only
      split <;> exact Or.inl rfl
    | none => exact Or.inl rfl
  | reconnectTimerFire =>
    simp only [step]; split
    · split
      · exact Or.inl rfl
      · exact Or.inl (connect_connectionState _)
    · exact Or.inl rfl
  | disconnectCall => exact Or.inr (Or.inl rfl)
  | connectionWatchdogFire =>
    simp only [step]; split
    · exact Or.inr (Or.inl (by
        rw [handleConnectionTimeout, scheduleReconnect_connectionState]; rfl))
    · exact Or.inl rfl

theorem run_connectionState (s : WSState) (es : List Event)
    (h : s.connectionState = "disconnected" ∨ s.connectionState = "connected") :
    (run s es).1.connectionState = "disconnected" ∨
    (run s es).1.connectionState = "connected" := by
  induction es generalizing s with
  | nil => exact h
  | cons e rest ih =>
    simp only [run]
    apply ih
    rcases step_connectionState s e with h1 | h1 | h1
    · rw [h1]; exact h
    · exact Or.inl h1
    · exact Or.inr h1

theorem step_deadStopped (s : WSState) (e : Event)
    (h1 : s.isStopping = true) (h2 : s.wsExists = false)
    (h3 : s.connectionState = "disconnected") :
    (step s e).1.isStopping = true ∧ (step s e).1.wsExists = false ∧
    (step s e).1.connectionState = "disconnected" := by
  cases e with
  | connectCall =>
    simp only [step, connect_stopping s h1]
    exact ⟨h1, h2, h3⟩
  | openEvt =>
    simp only [step, h2, Bool.false_and, Bool.false_eq_true, if_false]
    exact ⟨h1, trivial, h3⟩
  | closeEvt =>
    simp only [step, onClose, h1, if_true]
    exact ⟨h1, h2, rfl⟩
  | errorEvt b t =>
    have hef1 : (errorFlagged s b t).isStopping = true := by
      unfold errorFlagged; split <;> exact h1
    have hef2 : (errorFlagged s b t).wsExists = false := by
      unfold errorFlagged; split <;> exact h2
    have hef3 : (errorFlagged s b t).connectionState = "disconnected" := by
      rw [errorFlagged_connectionState]; exact h3
    simp only [step, onError]
    split
    · rw [scheduleReconnect_stopping _ (by simpa using hef1)]
      exact ⟨hef1, hef2, hef3⟩
    · exact ⟨hef1, hef2, hef3⟩
  | message d =>
    simp only [step]
    split
    · have h := processMessage_eqExceptPending
        { s with connectionWatchdog := true, pingWatchdog := true } d
      exact ⟨h.2.2.2.1.trans h1, h.1.trans h2, h.2.2.2.2.1.trans h3⟩
    · exact ⟨h1, h2, h3⟩
  | register r tmo t =>
    simp only [step]
    split
    · exact ⟨h1, h2, h3⟩
    · exact ⟨h1, h2, h3⟩
  | commandTimeout r =>
    simp only [step]
    cases s.pendingCommands r with
    | some p =>
      dsimp only
      split
      · exact ⟨h1, h2, h3⟩
      · exact ⟨h1, h2, h3⟩
    | none => exact ⟨h1, h2, h3⟩
  | reconnectTimerFire =>
    simp only [step]
    split
    · simp only [h1, if_true]
      exact ⟨trivial, h2, h3⟩
    · exact ⟨h1, h2, h3⟩
  | disconnectCall => exact ⟨rfl, rfl, rfl⟩
  | connectionWatchdogFire =>
    simp only [step]
    split
    · rw [handleConnectionTimeout, scheduleReconnect_stopping (disconnect s) rfl]
      exact ⟨rfl, rfl, rfl⟩
    · exact ⟨h1, h2, h3⟩

theorem run_deadStopped (s : WSState) (es : List Event)
    (h1 : s.isStopping = true) (h2 : s.wsExists = false)
    (h3 : s.connectionState = "disconnected") :
    (run s es).1.isStopping = true ∧ (run s es).1.wsExists = false ∧
    (run s es).1.connectionState = "disconnected" := by
  induction es generalizing s with
  | nil => exact ⟨h1, h2, h3⟩
  | cons e rest ih =>
    simp only [run]
    have h := step_deadStopped s e h1 h2 h3
    exact ih (step s e).1 h.1 h.2.1 h.2.2

theorem handleOneStatus_absent (s : WSState) (st : CommandStatus)
    (h : s.pendingCommands st.requestId = none) :
    handleOneStatus s st = (s, []) := by
  unfold handleOneStatus
  rw [h]

theorem handleStatusList_absent (s : WSState) (l : List CommandStatus)
    (h : ∀ st ∈ l, s.pendingCommands st.requestId = none) :
    handleStatusList s l = (s, []) := by
  induction l with
  | nil => rfl
  | cons hd tl ih =>
    have h1 : handleOneStatus s hd = (s, []) := handleOneStatus_absent s hd (h hd (by simp))
    have h2 : handleStatusList s tl = (s, []) := ih (fun st hst => h st (by simp [hst]))
    simp [handleStatusList, h1, h2]

theorem handleVinList_absent (s : WSState) (l : List (String × Option (List CommandStatus)))
    (h : ∀ p ∈ l, ∀ cs, p.2 = some cs → ∀ st ∈ cs, s.pendingCommands st.requestId = none) :
    handleVinList s l = (s, []) := by
  induction l with
  | nil => rfl
  | cons hd tl ih =>
    obtain ⟨vin, opids⟩ := hd
    have htl : handleVinList s tl = (s, []) :=
      ih (fun p hp cs hcs st hst => h p (by simp [hp]) cs hcs st hst)
    cases opids with
    | none => simpa [handleVinList] using htl
    | some pids =>
      have h1 : handleStatusList s pids = (s, []) :=
        handleStatusList_absent s pids (fun st hst => h (vin, some pids) (by simp) pids rfl st hst)
      simp [handleVinList, h1, htl]

theorem presence_eq_of (s1 s2 : WSState) (r : String)
    (h : s1.pendingCommands r = s2.pendingCommands r) : presence s1 r = presence s2 r := by
  unfold presence; rw [h]

theorem settlementsFor_vep (r : String) (v : Option VepUpdates) :
    settlementsFor r (processVepUpdates v).1 = 0 := by
  cases v with
  | none => rfl
  | some vu =>
    cases h : vu.updates with
    | none => simp [processVepUpdates, h, settlementsFor]
    | some ups => simp [processVepUpdates, h, settlementsFor_telemetry]

theorem handleOneStatus_bound (s : WSState) (st : CommandStatus) (r : String) :
    settlementsFor r (handleOneStatus s st).2 + presence (handleOneStatus s st).1 r ≤
      presence s r := by
  unfold handleOneStatus
  cases h : s.pendingCommands st.requestId with
  | none => simp [settlementsFor, presence]
  | some p =>
    by_cases hr : r = st.requestId
    · subst hr
      by_cases h5 : mappedState st.state = "FINISHED"
      · simp [h5, settlementsFor, Output.settles, presence, h]
      · by_cases h6 : mappedState st.state = "FAILED" <;>
          simp [h5, h6, settlementsFor, Output.settles, presence, h]
    · have hr' : ¬(st.requestId = r) := fun hh => hr hh.symm
      by_cases h5 : mappedState st.state = "FINISHED"
      · simp [h5, settlementsFor, Output.settles, presence, hr, hr']
      · by_cases h6 : mappedState st.state = "FAILED" <;>
          simp [h5, h6, settlementsFor, Output.settles, presence, hr, hr']

theorem handleStatusList_bound (s : WSState) (l : List CommandStatus) (r : String) :
    settlementsFor r (handleStatusList s l).2 + presence (handleStatusList s l).1 r ≤
      presence s r := by
  induction l generalizing s with
  | nil => simp [handleStatusList, settlementsFor]
  | cons hd tl ih =>
    simp only [handleStatusList, settlementsFor_append]
    have h1 := handleOneStatus_bound s hd r
    have h2 := ih (handleOneStatus s hd).1
    omega

theorem handleVinList_bound (s : WSState)
    (l : List (String × Option (List CommandStatus))) (r : String) :
    settlementsFor r (handleVinList s l).2 + presence (handleVinList s l).1 r ≤
      presence s r := by
  induction l generalizing s with
  | nil => simp [handleVinList, settlementsFor]
  | cons hd tl ih =>
    obtain ⟨vin, opids⟩ := hd
    cases opids with
    | none => simpa [handleVinList] using ih s
    | some pids =>
      simp only [handleVinList, settlementsFor_append]
      have h1 := handleStatusList_bound s pids r
      have h2 := ih (handleStatusList s pids).1
      omega

theorem dispatchMessage_bound (s : WSState) (msg : PushMessage) (r : String) :
    settlementsFor r (dispatchMessage s msg).2.1 + presence (dispatchMessage s msg).1 r ≤
      presence s r := by
  cases msg with
  | vepUpdates v => simp [dispatchMessage, settlementsFor_vep]
  | assigned_vehicles => simp [dispatchMessage, settlementsFor]
  | apptwin_pending_command_request => simp [dispatchMessage, settlementsFor]
  | apptwin_command_status_updates_by_vin su =>
    simpa [dispatchMessage, handleCommandStatusUpdates] using
      handleVinList_bound s su.updatesByVin r
  | service_status_updates p =>
    cases p with
    | none => simp [dispatchMessage, settlementsFor]
    | some seq => by_cases h : seq = 0 <;> simp [dispatchMessage, h, settlementsFor]
  | user_data_update p =>
    cases p with
    | none => simp [dispatchMessage, settlementsFor]
    | some seq => by_cases h : seq = 0 <;> simp [dispatchMessage, h, settlementsFor]
  | debugMessage t => simp [dispatchMessage, settlementsFor]
  | other t => simp [dispatchMessage, settlementsFor]

theorem processMessage_bound (s : WSState) (d : Except String (Option PushMessage))
    (r : String) :
    settlementsFor r (processMessage s d).2.1 + presence (processMessage s d).1 r ≤
      presence s r := by
  unfold processMessage
  match d with
  | .error e => simp [settlementsFor]
  | .ok none => simp [settlementsFor]
  | .ok (some msg) => exact dispatchMessage_bound s msg r

theorem step_bound (s : WSState) (e : Event) (r : String) :
    settlementsFor r (step s e).2 + presence (step s e).1 r ≤
      presence s r + (if e.registers r then 1 else 0) := by
  cases e with
  | connectCall =>
    simp only [step, Event.registers]
    have h := presence_eq_of (connect s) s r
      (by rw [connect_pendingCommands])
    simp [settlementsFor, h]
  | openEvt =>
    simp only [step, Event.registers]
    split
    · have h := presence_eq_of (onOpen s) s r rfl
      simp [settlementsFor, h]
    · simp [settlementsFor, presence]
  | closeEvt =>
    simp only [step, Event.registers, onClose]
    have hc : (closedState s).pendingCommands = s.pendingCommands := rfl
    split
    · have h := presence_eq_of (closedState s) s r (by rw [hc])
      simp [settlementsFor, h]
    · have h := presence_eq_of (scheduleReconnect (closedState s)).1 s r
        (by rw [scheduleReconnect_pendingCommands, hc])
      simp [settlementsFor_reconnect, h]
  | errorEvt b t =>
    have hef : (errorFlagged s b t).pendingCommands = s.pendingCommands := by
      unfold errorFlagged; split <;> rfl
    simp only [step, Event.registers, onError]
    split
    · have h := presence_eq_of
        (scheduleReconnect { errorFlagged s b t with isConnecting := false }).1
        s r (by rw [scheduleReconnect_pendingCommands]; exact congrFun hef r)
      simp [settlementsFor_reconnect, h]
    · have h := presence_eq_of (errorFlagged s b t) s r (congrFun hef r)
      simp [settlementsFor, h]
  | message d =>
    simp only [step, Event.registers]
    split
    · have h := processMessage_bound { s with connectionWatchdog := true, pingWatchdog := true } d r
      have h2 : presence { s with connectionWatchdog := true, pingWatchdog := true } r =
          presence s r := presence_eq_of { s with connectionWatchdog := true, pingWatchdog := true } s r rfl
      unfold onMessage
      dsimp only
      omega
    · simp [settlementsFor, presence]
  | register rid tmo t =>
    simp only [step, Event.registers]
    split
    · by_cases hr : r = rid
      · subst hr
        have hp : presence (registerCommand s r tmo t) r = 1 := by
          simp [presence, registerCommand]
        simp [settlementsFor, hp]
      · have hp : presence (registerCommand s rid tmo t) r = presence s r := by
          apply presence_eq_of
          simp [registerCommand, hr]
        have hrb : (decide (rid = r)) = false :=
          decide_eq_false (fun hh => hr hh.symm)
        simp [settlementsFor, hp, hrb]
    · simp [settlementsFor, presence]
  | commandTimeout rid =>
    simp only [step, Event.registers]
    cases h : s.pendingCommands rid with
    | none => simp [settlementsFor, presence]
    | some p =>
      dsimp only
      split
      · by_cases hr : r = rid
        · subst hr
          simp [fireCommandTimeout, settlementsFor, Output.settles, presence, h]
        · have hr' : ¬(rid = r) := fun hh => hr hh.symm
          have hp2 : presence { s with pendingCommands :=
              fun k => if k = rid then none else s.pendingCommands k } r = presence s r := by
            unfold presence
            simp [hr]
          simp [fireCommandTimeout, settlementsFor, Output.settles, hr', hp2]
      · simp [settlementsFor, presence]
  | reconnectTimerFire =>
    simp only [step, Event.registers]
    split
    · split
      · simp [settlementsFor, presence]
      · have h := presence_eq_of (connect { s with reconnectTimer := false }) s r
          (by rw [connect_pendingCommands])
        simp [settlementsFor, h]
    · simp [settlementsFor, presence]
  | disconnectCall =>
    simp only [step, Event.registers]
    have h := presence_eq_of (disconnect s) s r rfl
    simp [settlementsFor, h]
  | connectionWatchdogFire =>
    simp only [step, Event.registers]
    split
    · have h := presence_eq_of (handleConnectionTimeout s).1 s r
        (by rw [handleConnectionTimeout, scheduleReconnect_pendingCommands]; rfl)
      rw [handleConnectionTimeout] at h ⊢
      simp [settlementsFor_reconnect, h]
    · simp [settlementsFor, presence]

theorem registersFor_cons (r : String) (e : Event) (es : List Event) :
    registersFor r (e :: es) = (if e.registers r then 1 else 0) + registersFor r es := by
  simp only [registersFor, List.filter_cons]
  split <;> simp [Nat.add_comm]

theorem run_bound (s : WSState) (r : String) (es : List Event) :
    settlementsFor r (run s es).2 + presence (run s es).1 r ≤
      presence s r + registersFor r es := by
  induction es generalizing s with
  | nil => simp [run, settlementsFor, registersFor]
  | cons e rest ih =>
    simp only [run, settlementsFor_append, registersFor_cons]
    have h1 := step_bound s e r
    have h2 := ih (step s e).1
    omega

theorem handleOneStatus_leak (s : WSState) (st : CommandStatus) (r : String) (tm t : Nat)
    (hm : s.pendingCommands r = some { timerArmed := false, timeoutMs := tm, sentAt := t })
    (hterm : st.terminalFor r = false) :
    (handleOneStatus s st).1.pendingCommands r =
      some { timerArmed := false, timeoutMs := tm, sentAt := t } ∧
    settlementsFor r (handleOneStatus s st).2 = 0 := by
  unfold handleOneStatus
  by_cases hr : st.requestId = r
  · subst hr
    rw [CommandStatus.terminalFor] at hterm
    simp only [decide_True, Bool.true_and, Bool.or_eq_false_iff, decide_eq_false_iff_not]
      at hterm
    rw [hm]
    simp [hterm.1, hterm.2, settlementsFor]
  · cases h2 : s.pendingCommands st.requestId with
    | none => exact ⟨hm, rfl⟩
    | some p =>
      have hr2 : ¬(r = st.requestId) := fun hh => hr hh.symm
      by_cases h5 : mappedState st.state = "FINISHED"
      · simp [h5, settlementsFor, Output.settles, hr, hr2, hm]
      · by_cases h6 : mappedState st.state = "FAILED" <;>
          simp [h5, h6, settlementsFor, Output.settles, hr, hr2, hm]

theorem handleStatusList_leak (s : WSState) (l : List CommandStatus) (r : String) (tm t : Nat)
    (hm : s.pendingCommands r = some { timerArmed := false, timeoutMs := tm, sentAt := t })
    (hterm : ∀ st ∈ l, st.terminalFor r = false) :
    (handleStatusList s l).1.pendingCommands r =
      some { timerArmed := false, timeoutMs := tm, sentAt := t } ∧
    settlementsFor r (handleStatusList s l).2 = 0 := by
  induction l generalizing s with
  | nil => exact ⟨hm, rfl⟩
  | cons hd tl ih =>
    simp only [handleStatusList, settlementsFor_append]
    have h1 := handleOneStatus_leak s hd r tm t hm (hterm hd (by simp))
    have h2 := ih (handleOneStatus s hd).1 h1.1 (fun st hst => hterm st (by simp [hst]))
    exact ⟨h2.1, by rw [h1.2, h2.2]⟩

theorem handleVinList_leak (s : WSState) (l : List (String × Option (List CommandStatus)))
    (r : String) (tm t : Nat)
    (hm : s.pendingCommands r = some { timerArmed := false, timeoutMs := tm, sentAt := t })
    (hterm : ∀ p ∈ l, ∀ cs, p.2 = some cs → ∀ st ∈ cs, st.terminalFor r = false) :
    (handleVinList s l).1.pendingCommands r =
      some { timerArmed := false, timeoutMs := tm, sentAt := t } ∧
    settlementsFor r (handleVinList s l).2 = 0 := by
  induction l generalizing s with
  | nil => exact ⟨hm, rfl⟩
  | cons hd tl ih =>
    obtain ⟨vin, opids⟩ := hd
    cases opids with
    | none =>
      simpa [handleVinList] using
        ih s hm (fun p hp cs hcs st hst => hterm p (by simp [hp]) cs hcs st hst)
    | some pids =>
      simp only [handleVinList, settlementsFor_append]
      have h1 := handleStatusList_leak s pids r tm t hm
        (fun st hst => hterm (vin, some pids) (by simp) pids rfl st hst)
      have h2 := ih (handleStatusList s pids).1 h1.1
        (fun p hp cs hcs st hst => hterm p (by simp [hp]) cs hcs st hst)
      exact ⟨h2.1, by rw [h1.2, h2.2]⟩

theorem step_leak (s : WSState) (e : Event) (r : String) (tm t : Nat)
    (hm : s.pendingCommands r = some { timerArmed := false, timeoutMs := tm, sentAt := t })
    (hterm : e.deliversTerminal r = false) (hreg : e.registers r = false) :
    (step s e).1.pendingCommands r =
      some { timerArmed := false, timeoutMs := tm, sentAt := t } ∧
    settlementsFor r (step s e).2 = 0 := by
  cases e with
  | connectCall =>
    simp only [step]
    rw [connect_pendingCommands]
    exact ⟨hm, rfl⟩
  | openEvt =>
    simp only [step]
    split
    · exact ⟨hm, rfl⟩
    · exact ⟨hm, rfl⟩
  | closeEvt =>
    simp only [step, onClose]
    split
    · exact ⟨hm, rfl⟩
    · rw [scheduleReconnect_pendingCommands]
      exact ⟨hm, settlementsFor_reconnect r _⟩
  | errorEvt b t' =>
    have hef : (errorFlagged s b t').pendingCommands = s.pendingCommands := by
      unfold errorFlagged; split <;> rfl
    simp only [step, onError]
    split
    · rw [scheduleReconnect_pendingCommands]
      exact ⟨(congrFun hef r).trans hm, settlementsFor_reconnect r _⟩
    · exact ⟨(congrFun hef r).trans hm, rfl⟩
  | message d =>
    simp only [step]
    split
    · unfold onMessage processMessage
      match d with
      | .error e => exact ⟨hm, rfl⟩
      | .ok none => exact ⟨hm, rfl⟩
      | .ok (some msg) =>
        cases msg with
        | vepUpdates v =>
          simp only [dispatchMessage]
          exact ⟨hm, settlementsFor_vep r v⟩
        | assigned_vehicles => exact ⟨hm, rfl⟩
        | apptwin_pending_command_request => exact ⟨hm, rfl⟩
        | apptwin_command_status_updates_by_vin su =>
          rw [Event.deliversTerminal] at hterm
          have hterm2 := List.any_eq_false.mp hterm
          have hv := handleVinList_leak
            { s with connectionWatchdog := true, pingWatchdog := true }
            su.updatesByVin r tm t hm
            (by
              intro p hp cs hcs st hst
              have h3 := hterm2 p hp
              rw [hcs] at h3
              simp only [Bool.not_eq_true] at h3
              exact Bool.not_eq_true _ ▸ (List.any_eq_false.mp h3 st hst))
          simpa [dispatchMessage, handleCommandStatusUpdates] using hv
        | service_status_updates p =>
          cases p with
          | none => exact ⟨hm, rfl⟩
          | some seq => by_cases h : seq = 0 <;> simp [dispatchMessage, h, settlementsFor, hm]
        | user_data_update p =>
          cases p with
          | none => exact ⟨hm, rfl⟩
          | some seq => by_cases h : seq = 0 <;> simp [dispatchMessage, h, settlementsFor, hm]
        | debugMessage tx => exact ⟨hm, rfl⟩
        | other tx => exact ⟨hm, rfl⟩
    · exact ⟨hm, rfl⟩
  | register rid tmo t' =>
    have hrid : ¬(r = rid) := by
      rw [Event.registers] at hreg
      simp only [decide_eq_false_iff_not] at hreg
      exact fun hh => hreg hh.symm
    simp only [step]
    split
    · constructor
      · simp only [registerCommand]
        simpa [hrid] using hm
      · rfl
    · exact ⟨hm, rfl⟩
  | commandTimeout rid =>
    simp only [step]
    by_cases hr : rid = r
    · subst hr
      rw [hm]
      exact ⟨hm, rfl⟩
    · cases h2 : s.pendingCommands rid with
      | none => exact ⟨hm, rfl⟩
      | some p =>
        dsimp only
        split
        · have hr2 : ¬(r = rid) := fun hh => hr hh.symm
          constructor
          · simp only [fireCommandTimeout]
            simpa [hr2] using hm
          · simp [fireCommandTimeout, settlementsFor, Output.settles, hr]
        · exact ⟨hm, rfl⟩
  | reconnectTimerFire =>
    simp only [step]
    split
    · split
      · exact ⟨hm, rfl⟩
      · rw [connect_pendingCommands]
        exact ⟨hm, rfl⟩
    · exact ⟨hm, rfl⟩
  | disconnectCall => exact ⟨hm, rfl⟩
  | connectionWatchdogFire =>
    simp only [step]
    split
    · rw [handleConnectionTimeout, scheduleReconnect_pendingCommands]
      exact ⟨hm, settlementsFor_reconnect r _⟩
    · exact ⟨hm, rfl⟩

theorem run_leak (s : WSState) (es : List Event) (r : String) (tm t : Nat)
    (hm : s.pendingCommands r = some { timerArmed := false, timeoutMs := tm, sentAt := t })
    (hterm : ∀ e ∈ es, e.deliversTerminal r = false ∧ e.registers r = false) :
    (run s es).1.pendingCommands r =
      some { timerArmed := false, timeoutMs := tm, sentAt := t } ∧
    settlementsFor r (run s es).2 = 0 := by
  induction es generalizing s with
  | nil => exact ⟨hm, rfl⟩
  | cons e rest ih =>
    simp only [run, settlementsFor_append]
    have h1 := step_leak s e r tm t hm (hterm e (by simp)).1 (hterm e (by simp)).2
    have h2 := ih (step s e).1 h1.1 (fun e' he' => hterm e' (by simp [he']))
    exact ⟨h2.1, by rw [h1.2, h2.2]⟩

/-! ### Claim theorems -/

/-- C2: the claim says that after `_handleConnectionTimeout` runs a reconnect
timer is pending.  In the code, `_handleConnectionTimeout` first calls
`disconnect()`, which sets `isStopping = true`, and then `_scheduleReconnect()`,
whose first guard returns immediately when `isStopping` is set — so for every
state, after the connection watchdog expires no reconnect timer is pending,
nothing is scheduled, and the instance is left in deliberate-shutdown mode.
This contradicts the claim (and the function's own log line
`'Connection timeout - initiating reconnect'`). -/
theorem connection_watchdog_expiry_never_schedules_reconnect (s : WSState) :
    (handleConnectionTimeout s).1.reconnectTimer = false ∧
    (handleConnectionTimeout s).1.isStopping = true ∧
    (handleConnectionTimeout s).2 = [] := by
  have h : (disconnect s).isStopping = true := rfl
  rw [handleConnectionTimeout, scheduleReconnect_stopping _ h]
  exact ⟨rfl, rfl, rfl⟩

/-- C5: with the rate-limited flag unset, `_scheduleReconnect` computes the
delay `min(10000 · n², 120000)` for attempt count `n` (the incremented
counter); a close/reconnect/close/reconnect/close sequence from a connected
session yields exactly the delays 10000, 40000 and 90000 ms. -/
theorem reconnect_delay_quadratic_backoff :
    (∀ s : WSState, s.isStopping = false → s.reconnectTimer = false →
        s.accountBlocked = false →
        (scheduleReconnect s).2 =
          [Output.reconnectScheduled (s.reconnectAttempts + 1)
            (min (10000 * (s.reconnectAttempts + 1) ^ 2) 120000)]) ∧
    (run (onOpen (connect initState))
        [Event.closeEvt, Event.reconnectTimerFire, Event.closeEvt,
         Event.reconnectTimerFire, Event.closeEvt]).2 =
      [Output.reconnectScheduled 1 10000, Output.reconnectScheduled 2 40000,
       Output.reconnectScheduled 3 90000] := by
  constructor
  · intro s h1 h2 h3
    simp [scheduleReconnect, h1, h2, h3, maxReconnectDelay]
  · decide

theorem reconnect_delay_quadratic_backoff_witness :
    (scheduleReconnect initState).2 = [Output.reconnectScheduled 1 10000] := by
  have h := reconnect_delay_quadratic_backoff.1 initState rfl rfl rfl
  simpa using h

/-- C6: whenever the rate-limited flag (`accountBlocked`) is set,
`_scheduleReconnect` raises the computed delay to at least the 60000 ms
floor, regardless of the attempt count. -/
theorem reconnect_delay_blocked_floor (s : WSState)
    (h1 : s.isStopping = false) (h2 : s.reconnectTimer = false)
    (h3 : s.accountBlocked = true) :
    ∃ d : Nat, (scheduleReconnect s).2 =
        [Output.reconnectScheduled (s.reconnectAttempts + 1) d] ∧ 60000 ≤ d := by
  refine ⟨max (min (10000 * (s.reconnectAttempts + 1) ^ 2) maxReconnectDelay) 60000, ?_, ?_⟩
  · simp [scheduleReconnect, h1, h2, h3]
  · exact le_max_right _ _

theorem reconnect_delay_blocked_floor_witness :
    ∃ d : Nat, (scheduleReconnect { initState with accountBlocked := true }).2 =
        [Output.reconnectScheduled 1 d] ∧ 60000 ≤ d :=
  reconnect_delay_blocked_floor { initState with accountBlocked := true } rfl rfl rfl

/-- C8: inbound dispatch is a total function and failure is contained to the
single frame: a frame whose decode throws or returns null leaves the state
unchanged and produces no acknowledgment; an unrecognized payload variant
(the `default` branch) produces no acknowledgment, no state change and no
outputs; and a numeric command state code outside the `STATE_MAP` (any code
≥ 7, and also the explicit code 0) maps to `UNKNOWN` instead of throwing. -/
theorem dispatch_failure_containment :
    (∀ (s : WSState) (err : String), processMessage s (Except.error err) = (s, [], none)) ∧
    (∀ s : WSState, processMessage s (Except.ok none) = (s, [], none)) ∧
    (∀ (s : WSState) (t : String),
        processMessage s (Except.ok (some (PushMessage.other t))) = (s, [], none)) ∧
    (∀ code : Nat, 7 ≤ code → mappedState code = "UNKNOWN") ∧
    mappedState 0 = "UNKNOWN" := by
  refine ⟨fun s err => rfl, fun s => rfl, fun s t => rfl, ?_, rfl⟩
  intro code h
  obtain ⟨n, rfl⟩ : ∃ n, code = n + 7 := ⟨code - 7, by omega⟩
  rfl

theorem dispatch_failure_containment_witness :
    mappedState 99 = "UNKNOWN" :=
  dispatch_failure_containment.2.2.2.1 99 (by decide)

/-- C4: a command-status frame none of whose request identifiers is present
in `pendingCommands` leaves the tracker and the whole connection state
untouched and settles nothing (`_handleCommandStatusUpdates` hits the
`continue` at websocket.js:493-495 for every entry); being a total function,
it raises no exception. -/
theorem unknown_request_id_frame_no_effect (s : WSState) (su : CommandStatusUpdates)
    (h : ∀ r ∈ su.referencedIds, s.pendingCommands r = none) :
    handleCommandStatusUpdates s (some su) = (s, []) := by
  rw [handleCommandStatusUpdates]
  apply handleVinList_absent
  intro p hp cs hcs st hst
  apply h
  rw [CommandStatusUpdates.referencedIds, List.mem_flatMap]
  refine ⟨p, hp, ?_⟩
  rw [hcs]
  exact List.mem_map_of_mem _ hst

theorem unknown_request_id_frame_no_effect_witness :
    handleCommandStatusUpdates initState (some zzzFrame) = (initState, []) :=
  unknown_request_id_frame_no_effect initState zzzFrame (fun _ _ => rfl)

/-- C7: for a pending command whose request identifier matches an inbound
status entry, a `FINISHED` status (code 5) invokes the success callback and
removes the entry, and a `FAILED` status (code 6) carrying a non-empty error
code `c` and message `m` invokes the failure callback with an error whose
text contains both `m` and `c` (it is exactly
`"Command failed: " ++ m ++ " (" ++ c ++ ")"`) and removes the entry. -/
theorem terminal_status_settles_and_removes :
    (∀ (s : WSState) (p : Pending) (r : String) (errs : Option CommandError),
        s.pendingCommands r = some p →
        (handleOneStatus s { requestId := r, state := 5, errors := errs }).2 =
          [Output.resolved r "FINISHED"] ∧
        (handleOneStatus s { requestId := r, state := 5, errors := errs }).1.pendingCommands r = none) ∧
    (∀ (s : WSState) (p : Pending) (r c m : String),
        s.pendingCommands r = some p → m ≠ "" → c ≠ "" →
        (handleOneStatus s { requestId := r, state := 6, errors := some { code := some c, message := some m } }).2 =
          [Output.rejected r ("Command failed: " ++ m ++ " (" ++ c ++ ")")] ∧
        (∃ pre post, "Command failed: " ++ m ++ " (" ++ c ++ ")" = pre ++ m ++ post) ∧
        (∃ pre post, "Command failed: " ++ m ++ " (" ++ c ++ ")" = pre ++ c ++ post) ∧
        (handleOneStatus s { requestId := r, state := 6, errors := some { code := some c, message := some m } }).1.pendingCommands r = none) := by
  constructor
  · intro s p r errs hm
    unfold handleOneStatus
    simp [mappedState, STATE_MAP, hm]
  · intro s p r c m hm hmne hcne
    refine ⟨?_, ⟨"Command failed: ", " (" ++ c ++ ")", by simp [String.append_assoc]⟩,
      ⟨"Command failed: " ++ m ++ " (", ")", rfl⟩, ?_⟩
    · unfold handleOneStatus
      simp [mappedState, STATE_MAP, hm, failedErrorMessage, hmne, hcne]
    · unfold handleOneStatus
      simp [mappedState, STATE_MAP, hm]

/-- C1: the claim says a command that never receives a terminal status is
rejected by its timeout even when intermediate status updates arrive first.
In the code, `_handleCommandStatusUpdates` calls
`clearTimeout(pending.timeout)` (websocket.js:497-500) before inspecting the
state, so a single intermediate `PROCESSING` update permanently cancels the
command's timeout while leaving the entry in the tracker: from `leakedState`
(command `"abc"` registered, then one `PROCESSING` frame dispatched), for
every subsequent event sequence that delivers no terminal status for `"abc"`
(and does not re-register it) the entry is still present with its timer
disarmed and no settlement for `"abc"` is ever emitted — the command is
leaked past its timeout.  By contrast, without the intermediate update the
timeout does fire and produces the documented rejection. -/
theorem intermediate_update_cancels_timeout_leak (es : List Event)
    (h : ∀ e ∈ es, e.deliversTerminal "abc" = false ∧ e.registers "abc" = false) :
    leakedState.pendingCommands "abc" =
      some { timerArmed := false, timeoutMs := 30000, sentAt := 0 } ∧
    (run leakedState es).1.pendingCommands "abc" =
      some { timerArmed := false, timeoutMs := 30000, sentAt := 0 } ∧
    settlementsFor "abc" (run leakedState es).2 = 0 ∧
    (run leakRegistered [Event.commandTimeout "abc"]).2 =
      [Output.rejected "abc" "Command timeout - no response from vehicle"] := by
  have h0 : leakedState.pendingCommands "abc" =
      some { timerArmed := false, timeoutMs := 30000, sentAt := 0 } := by decide
  have h1 := run_leak leakedState es "abc" 30000 0 h0 h
  exact ⟨h0, h1.1, h1.2, by decide⟩

theorem intermediate_update_cancels_timeout_leak_witness :
    (run leakedState [Event.commandTimeout "abc"]).1.pendingCommands "abc" =
      some { timerArmed := false, timeoutMs := 30000, sentAt := 0 } ∧
    settlementsFor "abc" (run leakedState [Event.commandTimeout "abc"]).2 = 0 := by
  have h := intermediate_update_cancels_timeout_leak [Event.commandTimeout "abc"] (by decide)
  exact ⟨h.2.1, h.2.2.1⟩

/-- C3: at most one settlement (success callback, failure callback or
timeout rejection) is ever delivered for a request identifier: starting from
a state where `r` is not in the tracker, any sequence of runtime events
containing at most one registration of `r` produces at most one settlement
output for `r` — settling removes the entry and cancels the timeout, the
timeout firing removes the entry, and any later status frame referencing `r`
finds no entry and is dropped. -/
theorem at_most_one_settlement (s : WSState) (r : String) (es : List Event)
    (h0 : s.pendingCommands r = none) (h1 : registersFor r es ≤ 1) :
    settlementsFor r (run s es).2 ≤ 1 := by
  have hb := run_bound s r es
  have hp : presence s r = 0 := by unfold presence; rw [h0]
  omega

theorem at_most_one_settlement_witness :
    settlementsFor "abc" (run (onOpen (connect initState))
      [Event.register "abc" 30000 0,
       Event.message (Except.ok (some
         (PushMessage.apptwin_command_status_updates_by_vin finishedFrame))),
       Event.message (Except.ok (some
         (PushMessage.apptwin_command_status_updates_by_vin finishedFrame))),
       Event.commandTimeout "abc"]).2 ≤ 1 :=
  at_most_one_settlement (onOpen (connect initState)) "abc"
    [Event.register "abc" 30000 0,
     Event.message (Except.ok (some
       (PushMessage.apptwin_command_status_updates_by_vin finishedFrame))),
     Event.message (Except.ok (some
       (PushMessage.apptwin_command_status_updates_by_vin finishedFrame))),
     Event.commandTimeout "abc"] rfl (by decide)

/-- C9 counterexample: the claim says the connection-state accessor returns
`connecting` between a call to `connect()` and the socket's `open` event.  In
the code, `connect`/`_connectInternal` never assign `connectionState`, so
immediately after `connect()` is called on a fresh instance the instance is
connecting (`isConnecting` is set) yet the accessor still returns
`disconnected`, not `connecting`. -/
theorem connecting_never_exposed :
    (connect initState).isConnecting = true ∧
    getConnectionState (connect initState) = "disconnected" ∧
    getConnectionState (connect initState) ≠ "connecting" := by
  refine ⟨rfl, rfl, ?_⟩
  decide

/-- C9 amended: the accessor only ever takes the values `disconnected` and
`connected` (`connecting` is never assigned): under any event sequence the
accessor stays in that two-value set; between `connect()` and `open` it still
returns `disconnected`; after the `open` event it returns `connected`; after
the `close` event or `disconnect()` it returns `disconnected`. -/
theorem connection_state_accessor_amended :
    (∀ (s : WSState) (es : List Event),
        getConnectionState s = "disconnected" ∨ getConnectionState s = "connected" →
        (getConnectionState (run s es).1 = "disconnected" ∨
         getConnectionState (run s es).1 = "connected")) ∧
    getConnectionState (connect initState) = "disconnected" ∧
    (∀ s : WSState, getConnectionState (onOpen s) = "connected") ∧
    (∀ s : WSState, getConnectionState (onClose s).1 = "disconnected") ∧
    (∀ s : WSState, getConnectionState (disconnect s) = "disconnected") := by
  refine ⟨?_, rfl, fun s => rfl, fun s => onClose_connectionState s, fun s => rfl⟩
  intro s es h
  exact run_connectionState s es h

theorem connection_state_accessor_amended_witness :
    getConnectionState (run initState [Event.connectCall]).1 = "disconnected" ∨
    getConnectionState (run initState [Event.connectCall]).1 = "connected" :=
  connection_state_accessor_amended.1 initState [Event.connectCall] (Or.inl rfl)

/-- C10: `disconnect()` sets `isStopping` and nothing ever clears it: the
assignment `isStopping = false` in `connect` sits after the guard that
returns when `isStopping` is set, so after a `disconnect()` every event
sequence leaves the flag set, the accessor pinned to `disconnected`, and
every later `connect()` a no-op — the instance can never reach the connected
state again through its public interface. -/
theorem disconnect_is_permanent (s : WSState) (es : List Event) :
    (run (disconnect s) es).1.isStopping = true ∧
    (run (disconnect s) es).1.connectionState = "disconnected" ∧
    connect (run (disconnect s) es).1 = (run (disconnect s) es).1 := by
  have h := run_deadStopped (disconnect s) es rfl rfl rfl
  exact ⟨h.1, h.2.2, connect_stopping _ h.1⟩

theorem terminal_status_settles_and_removes_witness :
    (handleOneStatus leakRegistered { requestId := "abc", state := 5, errors := none }).2 =
      [Output.resolved "abc" "FINISHED"] ∧
    (handleOneStatus leakRegistered { requestId := "abc", state := 6, errors := some { code := some "42", message := some "denied" } }).2 =
      [Output.rejected "abc" "Command failed: denied (42)"] := by
  constructor
  · exact (terminal_status_settles_and_removes.1 leakRegistered
      { timerArmed := true, timeoutMs := 30000, sentAt := 0 } "abc" none rfl).1
  · exact (terminal_status_settles_and_removes.2 leakRegistered
      { timerArmed := true, timeoutMs := 30000, sentAt := 0 } "abc" "42" "denied"
      rfl (by decide) (by decide)).1

end MercedesWebSocket
